import Mathlib

/-!
Shallow embedding of the Marian toolkit's expression-graph core
(`src/expression_graph.h`): a reverse-mode automatic-differentiation
graph.  The graph owns an ordered collection of nodes (the stack,
`ChainableStackPtr stack_`), a named-node registry
(`std::map<std::string, Expr> named_`), and the declared input and
parameter lists (`std::vector<Expr> inputs_`, `params_`).

Node handles (`Expr`) are modelled as positions into the stack: each
`new` in the C++ source yields a distinct node object, and within one
graph a node is identified by its position in construction order, so
index equality models pointer (reference) identity.

The forward/backward/backprop traversals do not compute tensor values
(the per-node arithmetic is outside this core); they are modelled as
the sequence of capability-contract calls (`allocate`, `forward`,
`backward`, `set_zero_adjoint`, `init_dependent`) the graph issues to
its nodes, which is exactly what the traversal code in
`expression_graph.h` determines.
-/

namespace Marian

/-- The leaf-node variants the graph constructs directly
(`InputNode`, `ParamNode`, `ConstantNode` in `node_operators.h`);
derived operator nodes are outside this core. -/
inductive NodeKind where
  | inputNode
  | paramNode
  | constantNode
  | operatorNode
  deriving DecidableEq

/-- Modelled from the spec: the node bodies live in `node_operators.h` /
`chainable.h`, which are not part of the given source.  A node carries
its variant, the `keywords::value=...` keyword argument when the
construction site passes one (`ones` passes `value=1`, `zeroes` passes
`value=0`), and references to earlier nodes it depends on ("zero or
more references to earlier nodes in the same graph"). -/
structure Node where
  kind : NodeKind
  valueKw : Option Int
  deps : List Nat
  deriving DecidableEq

/-- Errors surfaced by graph operations: `nameNotFound` models the
`UTIL_THROW_IF2` in `operator[]`; `outOfBounds` models the
precondition violation of `std::vector::back()` on an empty vector
(undefined behavior in the C++ source, reading past the end). -/
inductive GraphError where
  | nameNotFound
  | outOfBounds
  deriving DecidableEq

/-- The state of `class ExpressionGraph`: the ordered node collection
`stack_`, the named registry `named_` (association list; the
`std::map` key-uniqueness is maintained because insertion goes through
`emplace`, which never inserts an already-present key), and the
`params_` / `inputs_` handle lists. -/
structure ExpressionGraph where
  stack : List Node
  named : List (String × Nat)
  params : List Nat
  inputs : List Nat
  deriving DecidableEq

/-- The empty graph produced by the constructor
`ExpressionGraph() : stack_(new ChainableStack)`. -/
def ExpressionGraph.empty : ExpressionGraph :=
  { stack := [], named := [], params := [], inputs := [] }

/-- Embeds `named_.find(name)`: the registry lookup underlying
`operator[]`. -/
def findNamed (g : ExpressionGraph) (name : String) : Option Nat :=
  (g.named.find? (fun p => p.1 == name)).map (fun p => p.2)

/-- Embeds `Expr& operator[](const std::string& name)`: look the name
up in `named_`, throw (`UTIL_THROW_IF2`) when absent, otherwise return
the stored handle. -/
def getNamed (g : ExpressionGraph) (name : String) : Except GraphError Nat :=
  match findNamed g name with
  | none => Except.error GraphError.nameNotFound
  | some e => Except.ok e

/-- Embeds `bool has_node(const std::string& name) const`:
`named_.count(name) > 0`. -/
def has_node (g : ExpressionGraph) (name : String) : Bool :=
  decide (0 < g.named.countP (fun p => p.1 == name))

/-- Embeds `void add_named_node(Expr e, const std::string& name)`:
`named_.emplace(name, e)`.  `std::map::emplace` inserts only when no
element with the key exists; on a duplicate key it constructs nothing
and leaves the map unchanged. -/
def add_named_node (g : ExpressionGraph) (e : Nat) (name : String) :
    ExpressionGraph :=
  if (g.named.find? (fun p => p.1 == name)).isSome then g
  else { g with named := g.named ++ [(name, e)] }

/-- Modelled from the spec: the `Chainable` constructor (in
`chainable.h`, not part of the given source) appends the new node to
the graph's ordered collection — "each constructs a new node of the
requested variant, appends it to the ordered collection (this append
is what establishes topological position), and returns a handle". -/
def pushNode (g : ExpressionGraph) (n : Node) : ExpressionGraph × Nat :=
  ({ g with stack := g.stack ++ [n] }, g.stack.length)

/-- Embeds `Expr input(Args ...args)`: construct a new `InputNode`,
then `inputs_.emplace_back(e)` appends the returned handle to the
input list. -/
def input (g : ExpressionGraph) : ExpressionGraph × Nat :=
  let r := pushNode g { kind := NodeKind.inputNode, valueKw := none, deps := [] }
  ({ r.1 with inputs := r.1.inputs ++ [r.2] }, r.2)

/-- Embeds `Expr param(Args ...args)`: construct a new `ParamNode`,
then `params_.emplace_back(e)` appends the returned handle to the
parameter list. -/
def param (g : ExpressionGraph) : ExpressionGraph × Nat :=
  let r := pushNode g { kind := NodeKind.paramNode, valueKw := none, deps := [] }
  ({ r.1 with params := r.1.params ++ [r.2] }, r.2)

/-- Embeds `Expr constant(Args ...args)`: construct a new
`ConstantNode` and return the handle; no auxiliary list is touched.
The `v` argument is the `keywords::value` keyword when the call site
passes one. -/
def constant (g : ExpressionGraph) (v : Option Int) : ExpressionGraph × Nat :=
  pushNode g { kind := NodeKind.constantNode, valueKw := v, deps := [] }

/-- Embeds `Expr ones(Args ...args)`:
`Expr(this, new ConstantNode(keywords::value=1, args...))`. -/
def ones (g : ExpressionGraph) : ExpressionGraph × Nat :=
  constant g (some 1)

/-- Embeds `Expr zeroes(Args ...args)`:
`Expr(this, new ConstantNode(keywords::value=0, args...))`. -/
def zeroes (g : ExpressionGraph) : ExpressionGraph × Nat :=
  constant g (some 0)

/-- One capability-contract call the graph issues to the node at the
given stack position during a traversal. -/
inductive Event where
  | allocate (i : Nat) (batchSize : Int)
  | forwardOn (i : Nat)
  | set_zero_adjoint (i : Nat)
  | init_dependent (i : Nat)
  | backwardOn (i : Nat)
  deriving DecidableEq

/-- Recognizes an `allocate` call in a trace. -/
def Event.isAllocate : Event → Bool
  | Event.allocate _ _ => true
  | _ => false

/-- Recognizes a `forward` call in a trace. -/
def Event.isForwardOn : Event → Bool
  | Event.forwardOn _ => true
  | _ => false

/-- The observable outcome of a traversal: the capability calls it
issued, in order, and the error it aborted with (if any). -/
structure Run where
  events : List Event
  err : Option GraphError
  deriving DecidableEq

/-- Sequential composition of two traversals: the second runs only if
the first did not abort. -/
def Run.andThen (r1 r2 : Run) : Run :=
  match r1.err with
  | some e => { events := r1.events, err := some e }
  | none => { events := r1.events ++ r2.events, err := r2.err }

/-- Embeds `void forward(int batchSize)`: one full pass over `stack_`
calling `allocate(batchSize)` on every node, then a second full pass
over `stack_` calling `forward()` on every node. -/
def forward (g : ExpressionGraph) (batchSize : Int) : Run :=
  { events :=
      (List.range g.stack.length).map (fun i => Event.allocate i batchSize)
      ++ (List.range g.stack.length).map Event.forwardOn,
    err := none }

/-- Embeds `void backward()`: one pass over `stack_` calling
`set_zero_adjoint()` on every node, then `stack_->back()->init_dependent()`,
then a pass over `stack_` in reverse-iterator order calling
`backward()` on every node.  `stack_->back()` on an empty vector is an
out-of-bounds access (undefined behavior); the source performs it
unconditionally, so the empty case aborts at that point, after the
(empty) zeroing pass. -/
def backward (g : ExpressionGraph) : Run :=
  let n := g.stack.length
  let zeros := (List.range n).map Event.set_zero_adjoint
  if n = 0 then
    { events := zeros, err := some GraphError.outOfBounds }
  else
    { events := zeros ++ [Event.init_dependent (n - 1)]
        ++ (List.range n).reverse.map Event.backwardOn,
      err := none }

/-- Embeds `void backprop(int batchSize)`:
`forward(batchSize); backward();`. -/
def backprop (g : ExpressionGraph) (batchSize : Int) : Run :=
  (forward g batchSize).andThen (backward g)

/-- Follows the spec's words for `backprop` ("convenience composition —
run `forward(batchSize)` then `backward()`"), for comparison with the
source's `backprop`. -/
def specBackprop (g : ExpressionGraph) (batchSize : Int) : Run :=
  (forward g batchSize).andThen (backward g)

/-- Iterated registration: a sequence of `add_named_node` calls,
applied left to right. -/
def addAll (g : ExpressionGraph) (rs : List (Nat × String)) : ExpressionGraph :=
  rs.foldl (fun h r => add_named_node h r.1 r.2) g

/-- A concrete two-node graph whose registry binds "w" to node 0,
used to instantiate general theorems. -/
def sampleGraph : ExpressionGraph :=
  { stack := [{ kind := NodeKind.inputNode, valueKw := none, deps := [] },
              { kind := NodeKind.paramNode, valueKw := none, deps := [] }],
    named := [("w", 0)], params := [1], inputs := [0] }

/-! ### Helper lemmas about the named registry -/

lemma exists_binding_iff (l : List (String × Nat)) (n : String) :
    (∃ e, (n, e) ∈ l) ↔ ∃ p ∈ l, p.1 == n := by
  constructor
  · rintro ⟨e, he⟩
    exact ⟨(n, e), he, by simp⟩
  · rintro ⟨p, hp, hq⟩
    have h1 : p.1 = n := by simpa using hq
    exact ⟨p.2, by cases p; simp_all⟩

lemma find?_eq_none_of_has_node_false {g : ExpressionGraph} {n : String}
    (hfree : has_node g n = false) :
    g.named.find? (fun p => p.1 == n) = none := by
  have h1 : ¬ 0 < g.named.countP (fun p => p.1 == n) := by
    simpa [has_node] using hfree
  have h2 : ¬ ∃ p ∈ g.named, p.1 == n := by
    rw [← List.countP_pos_iff]
    exact h1
  rw [List.find?_eq_none]
  intro x hx hpx
  exact h2 ⟨x, hx, hpx⟩

lemma findNamed_add_fresh (g : ExpressionGraph) (n : String) (e : Nat)
    (hfree : has_node g n = false) :
    findNamed (add_named_node g e n) n = some e := by
  have hnone := find?_eq_none_of_has_node_false hfree
  simp [add_named_node, hnone, findNamed, List.find?_append, List.find?]

lemma findNamed_add_preserved (g : ExpressionGraph) (n m : String) (e h : Nat)
    (hf : findNamed g n = some e) :
    findNamed (add_named_node g h m) n = some e := by
  unfold add_named_node
  by_cases hc : (g.named.find? (fun p => p.1 == m)).isSome
  · simpa [hc] using hf
  · rcases Option.map_eq_some'.1 hf with ⟨p, hp, hpe⟩
    simp [hc, findNamed, List.find?_append, hp, hpe]

lemma findNamed_addAll_preserved (n : String) (e : Nat) :
    ∀ (rs : List (Nat × String)) (g : ExpressionGraph),
      findNamed g n = some e → findNamed (addAll g rs) n = some e := by
  intro rs
  induction rs with
  | nil => intro g hf; exact hf
  | cons r rs ih =>
      intro g hf
      exact ih (add_named_node g r.1 r.2)
        (findNamed_add_preserved g n r.2 e r.1 hf)

lemma getNamed_of_findNamed {g : ExpressionGraph} {n : String} {e : Nat}
    (hf : findNamed g n = some e) : getNamed g n = Except.ok e := by
  simp [getNamed, hf]

/-! ### Claim theorems -/

/-- C1: for every graph with at least one node, `backward()` issues
exactly this call sequence: `set_zero_adjoint()` on every node of the
stack in order, then `init_dependent()` on the last node in
construction order, then `backward()` on every node in strict reverse
construction order (the reversed pass starts at the last node and ends
at the first), and it does not abort. -/
theorem backward_call_sequence (g : ExpressionGraph) (h : g.stack ≠ []) :
    backward g =
      { events := (List.range g.stack.length).map Event.set_zero_adjoint
          ++ [Event.init_dependent (g.stack.length - 1)]
          ++ ((List.range g.stack.length).map Event.backwardOn).reverse,
        err := none } := by
  have hn : g.stack.length ≠ 0 := by
    simpa [List.length_eq_zero] using h
  simp [backward, hn, List.map_reverse]

/-- Witness for C1 at a concrete one-node graph. -/
theorem backward_call_sequence_witness :
    (input ExpressionGraph.empty).1.stack ≠ [] ∧
    backward (input ExpressionGraph.empty).1 =
      { events := [Event.set_zero_adjoint 0, Event.init_dependent 0,
                   Event.backwardOn 0], err := none } := by
  refine ⟨by decide, ?_⟩
  rw [backward_call_sequence (input ExpressionGraph.empty).1 (by decide)]
  decide

/-- C2: for every graph and batch size, `forward(b)` is two complete
passes over the stack: first `allocate(b)` on every node in
construction order, then — only after that pass is complete — `forward()`
on every node in the same order.  The first `stack.length` events of
the trace are all `allocate` calls and the remaining events contain no
`allocate` call, so no node's `forward()` precedes any node's
`allocate(b)`. -/
theorem forward_two_passes (g : ExpressionGraph) (b : Int) :
    forward g b =
      { events := (List.range g.stack.length).map (fun i => Event.allocate i b)
          ++ (List.range g.stack.length).map Event.forwardOn,
        err := none }
    ∧ ((List.range g.stack.length).map
        (fun i => Event.allocate i b)).all Event.isAllocate = true
    ∧ ((List.range g.stack.length).map
        Event.forwardOn).all (fun e => ! e.isAllocate) = true := by
  refine ⟨rfl, ?_, ?_⟩ <;>
    simp [List.all_eq_true, Event.isAllocate]

/-- C3: `backprop(b)` coincides with the spec's description — run
`forward(b)` then `backward()` — and its observable behavior is
exactly the forward trace followed by the backward trace, aborting
exactly when `backward()` aborts; there is no other effect. -/
theorem backprop_composition (g : ExpressionGraph) (b : Int) :
    backprop g b = specBackprop g b
    ∧ (backprop g b).events = (forward g b).events ++ (backward g).events
    ∧ (backprop g b).err = (backward g).err := by
  refine ⟨rfl, ?_, ?_⟩ <;>
    simp [backprop, Run.andThen, forward]

/-- C4 (counterexample): registering node 1 under the already-bound
name "w" does not add a binding for the second registration — after
the call the registry still holds only the first binding `("w", 0)`,
not bindings from both registrations.  `std::map::emplace` on an
existing key inserts nothing. -/
theorem add_named_node_alias_counterexample :
    (add_named_node sampleGraph 1 "w").named = [("w", 0)] ∧
    ¬ (("w", 1) ∈ (add_named_node sampleGraph 1 "w").named) := by
  decide

/-- C4 (amended): a later `add_named_node` under a name already bound
in the registry is a no-op — the earlier binding is kept, no new
binding is added, and the graph is unchanged (first writer wins). -/
theorem add_named_node_existing_noop (g : ExpressionGraph) (e : Nat)
    (n : String) (h : has_node g n = true) :
    add_named_node g e n = g := by
  have h1 : 0 < g.named.countP (fun p => p.1 == n) := by
    simpa [has_node] using h
  rcases List.countP_pos_iff.1 h1 with ⟨p, hp, hpn⟩
  have h2 : (g.named.find? (fun q => q.1 == n)).isSome := by
    rw [List.find?_isSome]
    exact ⟨p, hp, hpn⟩
  simp [add_named_node, h2]

/-- Witness for the amended C4 at a concrete graph with "w" bound. -/
theorem add_named_node_existing_noop_witness :
    has_node sampleGraph "w" = true ∧
    add_named_node sampleGraph 1 "w" = sampleGraph :=
  ⟨by decide, add_named_node_existing_noop sampleGraph 1 "w" (by decide)⟩

/-- C5: evaluating `backward()` at the failing input (the graph with
zero nodes): the zeroing pass issues no calls, and then
`stack_->back()` is executed unconditionally on the empty vector — an
out-of-bounds access (undefined behavior), not a defined defensive
failure; the source contains no emptiness check. -/
theorem backward_empty_graph_out_of_bounds :
    backward ExpressionGraph.empty =
      { events := [], err := some GraphError.outOfBounds } := by
  decide

/-- C6: `operator[](n)` fails with NameNotFound exactly when no
binding for `n` exists in the registry; `has_node n` is `true` exactly
when a binding for `n` exists (it is a total Boolean function, so it
never fails); and when the registry lookup finds a binding,
`operator[]` returns that stored handle without failing. -/
theorem lookup_error_iff_absent (g : ExpressionGraph) (n : String) :
    (getNamed g n = Except.error GraphError.nameNotFound ↔
      ¬ ∃ e, (n, e) ∈ g.named)
    ∧ (has_node g n = true ↔ ∃ e, (n, e) ∈ g.named)
    ∧ (∀ e, findNamed g n = some e →
        getNamed g n = Except.ok e ∧ (n, e) ∈ g.named) := by
  refine ⟨?_, ?_, ?_⟩
  · rw [exists_binding_iff]
    constructor
    · intro herr hex
      rcases List.find?_isSome.2 hex with hsome
      rcases Option.isSome_iff_exists.1 hsome with ⟨p, hp⟩
      simp [getNamed, findNamed, hp] at herr
    · intro hnone
      have h1 : g.named.find? (fun p => p.1 == n) = none := by
        rw [List.find?_eq_none]
        intro x hx hpx
        exact hnone ⟨x, hx, hpx⟩
      simp [getNamed, findNamed, h1]
  · rw [exists_binding_iff, has_node]
    simp [List.countP_pos_iff]
  · intro e hf
    refine ⟨getNamed_of_findNamed hf, ?_⟩
    rcases Option.map_eq_some'.1 hf with ⟨p, hp, hpe⟩
    have hmem : p ∈ g.named := List.mem_of_find?_eq_some hp
    have hpn : p.1 = n := by simpa using List.find?_some hp
    cases p
    simp_all

/-- Witness for C6: at the sample graph, the bound name "w" resolves
to its stored handle and the unbound name "missing" fails. -/
theorem lookup_error_iff_absent_witness :
    (getNamed sampleGraph "w" = Except.ok 0 ∧ ("w", 0) ∈ sampleGraph.named)
    ∧ getNamed sampleGraph "missing" =
        Except.error GraphError.nameNotFound :=
  ⟨(lookup_error_iff_absent sampleGraph "w").2.2 0 (by decide),
   (lookup_error_iff_absent sampleGraph "missing").1.2
     (by rintro ⟨e, he⟩; simp [sampleGraph] at he)⟩

/-- C7 (counterexample): with "w" already bound to node 0 in the
sample graph, `add_named_node` of node 1 under "w" followed by
`operator[]("w")` does not return node 1 — the round trip fails when
the name is already bound to a different node. -/
theorem named_round_trip_counterexample :
    ¬ (getNamed (add_named_node sampleGraph 1 "w") "w" = Except.ok 1) := by
  intro hc
  have h0 : getNamed (add_named_node sampleGraph 1 "w") "w" = Except.ok 0 := rfl
  rw [h0] at hc
  injection hc with h
  exact absurd h (by decide)

/-- C7 (amended): for every graph in which the name `n` is not yet
bound, `add_named_node(h, n)` followed by `operator[](n)` returns
exactly the handle `h` (handles are node positions, so equality is
reference identity); and for such an unbound name, `operator[](n)` on
the original graph fails with NameNotFound (with `has_node g n = false`
as the hypothesis). -/
theorem named_round_trip_fresh (g : ExpressionGraph) (h : Nat) (n : String)
    (hfree : has_node g n = false) :
    getNamed (add_named_node g h n) n = Except.ok h
    ∧ getNamed g n = Except.error GraphError.nameNotFound := by
  refine ⟨getNamed_of_findNamed (findNamed_add_fresh g n h hfree), ?_⟩
  have hnone := find?_eq_none_of_has_node_false hfree
  simp [getNamed, findNamed, hnone]

/-- Witness for the amended C7 at a fresh name on the sample graph. -/
theorem named_round_trip_fresh_witness :
    has_node sampleGraph "v" = false ∧
    (getNamed (add_named_node sampleGraph 1 "v") "v" = Except.ok 1
      ∧ getNamed sampleGraph "v" = Except.error GraphError.nameNotFound) :=
  ⟨by decide, named_round_trip_fresh sampleGraph 1 "v" (by decide)⟩

/-- C8: `input` appends its newly returned handle to the input list
and leaves the parameter list untouched; `param` appends to the
parameter list and leaves the input list untouched; `constant`, `ones`
and `zeroes` append to neither.  Each call extends the stack by
exactly the one new node, so every previously existing stack entry —
in particular its dependency list — is unchanged (the `take`
conjuncts make that frame condition explicit). -/
theorem construction_list_effects (g : ExpressionGraph) (v : Option Int) :
    ((input g).1.stack = g.stack
        ++ [{ kind := NodeKind.inputNode, valueKw := none, deps := [] }]
      ∧ (input g).1.stack.take g.stack.length = g.stack
      ∧ (input g).1.inputs = g.inputs ++ [(input g).2]
      ∧ (input g).1.params = g.params
      ∧ (input g).2 = g.stack.length)
    ∧ ((param g).1.stack = g.stack
        ++ [{ kind := NodeKind.paramNode, valueKw := none, deps := [] }]
      ∧ (param g).1.stack.take g.stack.length = g.stack
      ∧ (param g).1.params = g.params ++ [(param g).2]
      ∧ (param g).1.inputs = g.inputs
      ∧ (param g).2 = g.stack.length)
    ∧ ((constant g v).1.stack = g.stack
        ++ [{ kind := NodeKind.constantNode, valueKw := v, deps := [] }]
      ∧ (constant g v).1.stack.take g.stack.length = g.stack
      ∧ (constant g v).1.inputs = g.inputs
      ∧ (constant g v).1.params = g.params)
    ∧ ((ones g).1.inputs = g.inputs ∧ (ones g).1.params = g.params
      ∧ (ones g).1.stack.take g.stack.length = g.stack)
    ∧ ((zeroes g).1.inputs = g.inputs ∧ (zeroes g).1.params = g.params
      ∧ (zeroes g).1.stack.take g.stack.length = g.stack) := by
  refine ⟨⟨rfl, ?_, rfl, rfl, rfl⟩, ⟨rfl, ?_, rfl, rfl, rfl⟩,
    ⟨rfl, ?_, rfl, rfl⟩, ⟨rfl, rfl, ?_⟩, ⟨rfl, rfl, ?_⟩⟩ <;>
    simp [input, param, constant, ones, zeroes, pushNode, List.take_left]

/-- C9: `ones` constructs and returns a handle to a new constant node
whose value keyword is fixed to 1, and `zeroes` one whose value
keyword is fixed to 0 — both are exactly `constant` with the
respective value keyword, appended at the end of the stack, with the
new node's position returned as the handle. -/
theorem ones_zeroes_constant_value (g : ExpressionGraph) :
    (ones g).1.stack = g.stack
      ++ [{ kind := NodeKind.constantNode, valueKw := some 1, deps := [] }]
    ∧ (ones g).2 = g.stack.length
    ∧ (zeroes g).1.stack = g.stack
      ++ [{ kind := NodeKind.constantNode, valueKw := some 0, deps := [] }]
    ∧ (zeroes g).2 = g.stack.length
    ∧ ones g = constant g (some 1)
    ∧ zeroes g = constant g (some 0) :=
  ⟨rfl, rfl, rfl, rfl, rfl, rfl⟩

/-- C10: a binding in the named registry is immutable.  Once a lookup
of `n` finds node `e`, any further sequence of `add_named_node` calls
(under any names, including `n` itself) leaves that lookup result
unchanged; registering a fresh name and then performing any further
registrations still resolves that name to the first-registered handle
(first writer wins); and no node-construction operation touches the
registry at all. -/
theorem named_binding_immutable :
    (∀ (g : ExpressionGraph) (n : String) (e : Nat)
        (rs : List (Nat × String)),
      findNamed g n = some e →
        findNamed (addAll g rs) n = some e
        ∧ getNamed (addAll g rs) n = Except.ok e)
    ∧ (∀ (g : ExpressionGraph) (n : String) (e : Nat)
        (rs : List (Nat × String)),
      has_node g n = false →
        getNamed (addAll (add_named_node g e n) rs) n = Except.ok e)
    ∧ (∀ (g : ExpressionGraph) (v : Option Int),
      (input g).1.named = g.named ∧ (param g).1.named = g.named
      ∧ (constant g v).1.named = g.named ∧ (ones g).1.named = g.named
      ∧ (zeroes g).1.named = g.named) := by
  refine ⟨?_, ?_, ?_⟩
  · intro g n e rs hf
    have h1 := findNamed_addAll_preserved n e rs g hf
    exact ⟨h1, getNamed_of_findNamed h1⟩
  · intro g n e rs hfree
    exact getNamed_of_findNamed
      (findNamed_addAll_preserved n e rs (add_named_node g e n)
        (findNamed_add_fresh g n e hfree))
  · intro g v
    exact ⟨rfl, rfl, rfl, rfl, rfl⟩

/-- Witness for C10: the binding of "w" in the sample graph survives a
later conflicting registration, and a fresh registration of "v"
survives two later conflicting registrations. -/
theorem named_binding_immutable_witness :
    (findNamed sampleGraph "w" = some 0 ∧
      (findNamed (addAll sampleGraph [(1, "w")]) "w" = some 0
        ∧ getNamed (addAll sampleGraph [(1, "w")]) "w" = Except.ok 0))
    ∧ (has_node sampleGraph "v" = false ∧
      getNamed (addAll (add_named_node sampleGraph 7 "v")
        [(9, "v"), (3, "v")]) "v" = Except.ok 7) :=
  ⟨⟨by decide, named_binding_immutable.1 sampleGraph "w" 0 [(1, "w")]
      (by decide)⟩,
   ⟨by decide, named_binding_immutable.2.1 sampleGraph "v" 7 [(9, "v"), (3, "v")]
      (by decide)⟩⟩

end Marian
